import Mathlib

/-!
Shallow embedding of `libserver` (src/src/lib.rs), a request-routing and
dispatch core for an HTTP server, together with proofs about its body
collection, error taxonomy, request construction and route homogenization.

Machine conventions:
- bytes are `Nat` values (`bytes::Bytes` and body chunks become `List Nat`);
- the incoming transport byte stream (`hyper::body::Incoming`) is a finite
  list of events: a data chunk, or a transport fault ending the stream;
- `async` methods returning `BoxFuture` are pure functions (awaiting is the
  identity in this embedding; no concurrency is modelled);
- Rust `Result<A, E>` is `Except E A`; `Option` is `Option`.
-/

namespace LibServer

/-- Decidable equality for `Except`, so that concrete outcomes can be
compared by `decide`. -/
instance {ε α : Type} [DecidableEq ε] [DecidableEq α] : DecidableEq (Except ε α) :=
  fun a b =>
    match a, b with
    | Except.ok x, Except.ok y =>
      if h : x = y then isTrue (congrArg Except.ok h)
      else isFalse (fun hc => h (by injection hc))
    | Except.error x, Except.error y =>
      if h : x = y then isTrue (congrArg Except.error h)
      else isFalse (fun hc => h (by injection hc))
    | Except.ok _, Except.error _ => isFalse (fun hc => Except.noConfusion hc)
    | Except.error _, Except.ok _ => isFalse (fun hc => Except.noConfusion hc)

/-- A transport-level (hyper) error, abstracted to an error code. -/
structure HyperError where
  code : Nat
deriving DecidableEq, Repr

/-- One event of the incoming transport byte stream: either a data chunk or
a transport fault that terminates the stream. -/
inductive StreamEvent where
  | chunk (bytes : List Nat)
  | fault (e : HyperError)
deriving DecidableEq, Repr

/-- Header mapping, kept abstract as an association list; the claims only
require that it is copied, never inspected. -/
abbrev HeaderMap := List (String × String)

/-- The transport layer's incoming message (`hyper::Request<Incoming>`):
a URI path, a header mapping, and the unconsumed body byte stream. -/
structure HyperIncoming where
  uriPath : String
  headers : HeaderMap
  bodyStream : List StreamEvent
deriving DecidableEq, Repr

/-- `Body { inner: hyper::Request<hyper::body::Incoming> }` (lib.rs:20-22):
wraps the whole incoming message, whose body stream is consumed lazily. -/
structure Body where
  inner : HyperIncoming
deriving DecidableEq, Repr

/-- `Header` (lib.rs:59-62). -/
structure Header where
  url_path : String
  headers : HeaderMap
deriving DecidableEq, Repr

/-- `Request` (lib.rs:9-12). -/
structure Request where
  header : Header
  body : Body
deriving DecidableEq, Repr

/-- `Request::split` (lib.rs:15-17). -/
def Request.split (r : Request) : Header × Body :=
  (r.header, r.body)

/-- `Response` (lib.rs:64-68); the lazy byte-frame stream is modelled as a
finite list of frames, which the claims never inspect. -/
structure Response where
  status : Nat
  headers : HeaderMap
  frames : List (List Nat)
deriving DecidableEq, Repr

/-- `Error` (lib.rs:80-84). `Encoding` carries `std::string::FromUtf8Error`,
which holds the bytes that failed validation. -/
inductive Error where
  | Hyper (e : HyperError)
  | Encoding (bytes : List Nat)
  | RequestTooLarge (actual limit : Nat)
deriving DecidableEq, Repr

/-- Semantics of hyper's `BodyExt::collect(...).to_bytes()` on the modelled
stream: drain every chunk in order and concatenate; the first transport
fault aborts the drain and is returned as the error. -/
def collectStream : List StreamEvent → Except HyperError (List Nat)
  | [] => Except.ok []
  | StreamEvent.chunk bs :: rest =>
    match collectStream rest with
    | Except.ok tail => Except.ok (bs ++ tail)
    | Except.error e => Except.error e
  | StreamEvent.fault e :: _ => Except.error e

/-- Trace of the aggregate buffer's size while hyper's `collect` drains the
stream (one entry per chunk appended, starting from accumulated size `acc`);
a fault aborts the drain. Modelled from hyper's `collect`, which aggregates
every frame before `to_bytes` is called. -/
def collectBufferTrace : List StreamEvent → Nat → List Nat
  | [], _ => []
  | StreamEvent.chunk bs :: rest, acc =>
    (acc + bs.length) :: collectBufferTrace rest (acc + bs.length)
  | StreamEvent.fault _ :: _, _ => []

/-- `Body::collect_bytes` (lib.rs:25-33): collect the whole stream (the `?`
propagates a transport fault through `From<hyper::Error> for Error`), then
fail with `RequestTooLarge(len, max)` if a bound was supplied and exceeded,
else return the collected bytes. -/
def Body.collect_bytes (b : Body) (max_size : Option Nat) : Except Error (List Nat) :=
  match collectStream b.inner.bodyStream with
  | Except.error e => Except.error (Error.Hyper e)
  | Except.ok body =>
    match max_size with
    | some m =>
      if body.length > m then Except.error (Error.RequestTooLarge body.length m)
      else Except.ok body
    | none => Except.ok body

/-- Whether a byte is a UTF-8 continuation byte (`0x80..=0xBF`). -/
def isCont (b : Nat) : Bool := 128 ≤ b && b < 192

/-- Rust's UTF-8 well-formedness check (as in `core::str::from_utf8`):
rejects stray continuation bytes, overlong encodings, surrogate code points
and code points above U+10FFFF. -/
def validUtf8 : List Nat → Bool
  | [] => true
  | b :: rest =>
    if b < 128 then validUtf8 rest
    else if b < 194 then false
    else if b < 224 then
      match rest with
      | b1 :: rest2 => isCont b1 && validUtf8 rest2
      | [] => false
    else if b = 224 then
      match rest with
      | b1 :: b2 :: rest3 => (160 ≤ b1 && b1 < 192) && isCont b2 && validUtf8 rest3
      | _ => false
    else if b = 237 then
      match rest with
      | b1 :: b2 :: rest3 => (128 ≤ b1 && b1 < 160) && isCont b2 && validUtf8 rest3
      | _ => false
    else if b < 240 then
      match rest with
      | b1 :: b2 :: rest3 => isCont b1 && isCont b2 && validUtf8 rest3
      | _ => false
    else if b = 240 then
      match rest with
      | b1 :: b2 :: b3 :: rest4 =>
        (144 ≤ b1 && b1 < 192) && isCont b2 && isCont b3 && validUtf8 rest4
      | _ => false
    else if b < 244 then
      match rest with
      | b1 :: b2 :: b3 :: rest4 => isCont b1 && isCont b2 && isCont b3 && validUtf8 rest4
      | _ => false
    else if b = 244 then
      match rest with
      | b1 :: b2 :: b3 :: rest4 =>
        (128 ≤ b1 && b1 < 144) && isCont b2 && isCont b3 && validUtf8 rest4
      | _ => false
    else false

/-- `String::from_utf8`: a Rust `String` is its UTF-8 byte content, so on
valid input the bytes are returned unchanged; on invalid input the
`FromUtf8Error` (carrying the original bytes) is returned. -/
def stringFromUtf8 (bs : List Nat) : Except (List Nat) (List Nat) :=
  if validUtf8 bs then Except.ok bs else Except.error bs

/-- `Body::collect_str` (lib.rs:35-38): collect the bytes under the same
bound, then validate UTF-8; a validation failure becomes `Error::Encoding`
through `From<FromUtf8Error> for Error`. -/
def Body.collect_str (b : Body) (max_size : Option Nat) : Except Error (List Nat) :=
  match b.collect_bytes max_size with
  | Except.error e => Except.error e
  | Except.ok bs =>
    match stringFromUtf8 bs with
    | Except.error ebs => Except.error (Error.Encoding ebs)
    | Except.ok s => Except.ok s

/-- `impl From<hyper::Request<Incoming>> for Request` (lib.rs:47-57): copy
the URI path and the header map, and wrap the message as the `Body`. -/
def Request.fromHyper (v : HyperIncoming) : Request :=
  { header := { url_path := v.uriPath, headers := v.headers },
    body := { inner := v } }

/-- A `Router` implementation (lib.rs:98-102): `run` takes the request by
`&mut` and returns a (`'static`, hence non-borrowing) future of an optional
context. Mutation of the request is modelled by returning the updated
request alongside the optional context. -/
abbrev RouterFn (C : Type) := Request → Option C × Request

/-- A `Service` implementation (lib.rs:104-112): `call` consumes the request
and reads the context, producing a `Result<Response, Error>`. -/
abbrev ServiceFn (C : Type) := Request → C → Except Error Response

/-- `Route<R, S>` (lib.rs:150-153): a router paired with a service agreeing
on context type `C`; the trait objects are modelled by the functions they
denote. -/
structure Route (C : Type) where
  router : RouterFn C
  service : ServiceFn C

/-- `HomogeneousRouteIntermediate<C>` (lib.rs:172-175): the `Arc<dyn ...>`
handles after the first erasure stage, still mentioning `C`. -/
structure HomogeneousRouteIntermediate (C : Type) where
  router : RouterFn C
  service : ServiceFn C

/-- `HomogeneousRouteIntermediate::as_route_fn` (lib.rs:178-191): run the
router on the request (which may mutate it); on `Some(cx)` call the service
with the (possibly mutated) request and exactly that context, wrapping its
result as `Ok` (the matched outcome); on `None` hand the (possibly mutated)
request back as `Err` (the unmatched outcome). Rust's
`Result<Result<Response, Error>, Request>` is `Except Request (Except Error
Response)`. -/
def HomogeneousRouteIntermediate.as_route_fn (t : HomogeneousRouteIntermediate C)
    (req : Request) : Except Request (Except Error Response) :=
  match t.router req with
  | (some cx, req2) => Except.ok (t.service req2 cx)
  | (none, req2) => Except.error req2

/-- `HomogeneousRoute` (lib.rs:200-202): the fully erased, shared callable. -/
structure HomogeneousRoute where
  inner : Request → Except Request (Except Error Response)

/-- `HomogeneousRouteIntermediate::make_fully_homogeneous` (lib.rs:193-198). -/
def HomogeneousRouteIntermediate.make_fully_homogeneous
    (t : HomogeneousRouteIntermediate C) : HomogeneousRoute :=
  HomogeneousRoute.mk t.as_route_fn

/-- `Route::homogeneous` (lib.rs:161-169). -/
def Route.homogeneous (r : Route C) : HomogeneousRoute :=
  (HomogeneousRouteIntermediate.mk r.router r.service).make_fully_homogeneous

/-- Whether a body-collection result is an `Encoding` failure. -/
def isEncodingResult : Except Error (List Nat) → Bool
  | Except.error (Error.Encoding _) => true
  | _ => false

/-! ## Helper lemmas -/

/-- Collecting a fault-free stream yields the concatenation of its chunks
in order. -/
theorem collectStream_chunks (chunks : List (List Nat)) :
    collectStream (chunks.map StreamEvent.chunk) = Except.ok chunks.flatten := by
  induction chunks with
  | nil => rfl
  | cons c rest ih => simp [collectStream, ih]

/-- The first transport fault aborts stream collection with that fault. -/
theorem collectStream_fault (chunks : List (List Nat)) (e : HyperError)
    (rest : List StreamEvent) :
    collectStream (chunks.map StreamEvent.chunk ++ StreamEvent.fault e :: rest)
      = Except.error e := by
  induction chunks with
  | nil => rfl
  | cons c cs ih => simp [collectStream, ih]

/-- Draining a nonempty fault-free stream makes the aggregate buffer reach
the full total length at some point of the drain. -/
theorem collectBufferTrace_total (chunks : List (List Nat)) (hne : chunks ≠ [])
    (acc : Nat) :
    acc + chunks.flatten.length ∈ collectBufferTrace (chunks.map StreamEvent.chunk) acc := by
  induction chunks generalizing acc with
  | nil => exact absurd rfl hne
  | cons c cs ih =>
    cases cs with
    | nil => simp [collectBufferTrace]
    | cons d ds =>
      have hmem := ih (by simp) (acc + c.length)
      have harr : acc + ((c :: d :: ds).flatten).length
          = acc + c.length + ((d :: ds).flatten).length := by
        simp [List.length_flatten]
        omega
      rw [List.map_cons]
      show acc + ((c :: d :: ds).flatten).length ∈
        (acc + c.length) ::
          collectBufferTrace (List.map StreamEvent.chunk (d :: ds)) (acc + c.length)
      rw [harr]
      exact List.mem_cons_of_mem _ hmem

/-- `collect_bytes` on a fault-free stream within the bound (or unbounded)
returns the concatenation of the chunks. -/
theorem collect_bytes_ok_of_bound (chunks : List (List Nat)) (max_size : Option Nat)
    (p : String) (hs : HeaderMap)
    (h : ∀ m, max_size = some m → chunks.flatten.length ≤ m) :
    Body.collect_bytes (Body.mk (HyperIncoming.mk p hs (chunks.map StreamEvent.chunk)))
      max_size = Except.ok chunks.flatten := by
  cases max_size with
  | none => simp [Body.collect_bytes, collectStream_chunks]
  | some m =>
    have hm := h m rfl
    rw [List.length_flatten] at hm
    simp [Body.collect_bytes, collectStream_chunks, hm]

/-- `collect_bytes` on a fault-free stream exceeding the bound fails with
`RequestTooLarge(total, bound)`. -/
theorem collect_bytes_error_of_over (chunks : List (List Nat)) (m : Nat)
    (p : String) (hs : HeaderMap) (h : m < chunks.flatten.length) :
    Body.collect_bytes (Body.mk (HyperIncoming.mk p hs (chunks.map StreamEvent.chunk)))
      (some m) = Except.error (Error.RequestTooLarge chunks.flatten.length m) := by
  rw [List.length_flatten] at h
  simp [Body.collect_bytes, collectStream_chunks, h]

/-! ## Concrete fixtures used by witnesses and counterexamples -/

/-- A concrete request used by the route-dispatch witnesses. -/
def reqA : Request :=
  Request.mk (Header.mk "/api/x" [("host", "a")])
    (Body.mk (HyperIncoming.mk "/api/x" [("host", "a")] [StreamEvent.chunk [104, 105]]))

/-- A concrete response. -/
def respA : Response := Response.mk 200 [] [[111, 107]]

/-- A router (context `Nat`) that always matches with context `7` and does
not mutate the request. -/
def matchRouter : RouterFn Nat := fun r => (some 7, r)

/-- A service (context `Nat`) that always succeeds with `respA`. -/
def constService : ServiceFn Nat := fun _ _ => Except.ok respA

/-- A router (context `Unit`) that never matches and does not mutate. -/
def noneRouter : RouterFn Unit := fun r => (none, r)

/-- A router (context `Unit`) that never matches but mutates the request in
place (replaces the URL path), as a prefix-stripping matcher would. -/
def mutRouter : RouterFn Unit := fun r =>
  (none, { r with header := { r.header with url_path := "stripped" } })

/-- A service (context `Unit`) that always succeeds with `respA`. -/
def unitService : ServiceFn Unit := fun _ _ => Except.ok respA

/-! ## Claims -/

/-- C1: for every Request given to a homogenized route's callable, the
outcome is exactly one of the cases of `Except Request (Except Error
Response)`: when the Router returns `Some cx` (leaving the request as
`req2`), the paired Service is invoked with exactly that context `cx` and
the callable returns the Service's result (`Ok` or `Err`) as the matched
outcome; when the Router returns `None`, the Service is never invoked (the
result is the same for every service) and the Request is handed back as the
unmatched outcome. -/
theorem as_route_fn_dispatch {C : Type} (router : RouterFn C) (service : ServiceFn C)
    (req : Request) :
    (∀ cx req2, router req = (some cx, req2) →
      (HomogeneousRouteIntermediate.mk router service).as_route_fn req
        = Except.ok (service req2 cx)) ∧
    (∀ req2, router req = (none, req2) →
      ∀ svc2 : ServiceFn C,
        (HomogeneousRouteIntermediate.mk router svc2).as_route_fn req
          = Except.error req2) := by
  constructor
  · intro cx req2 hrun
    simp [HomogeneousRouteIntermediate.as_route_fn, hrun]
  · intro req2 hrun svc2
    simp [HomogeneousRouteIntermediate.as_route_fn, hrun]

/-- Witness for C1: an always-matching route at a concrete request returns
the service's result as the matched outcome. -/
theorem as_route_fn_dispatch_witness :
    (HomogeneousRouteIntermediate.mk matchRouter constService).as_route_fn reqA
      = Except.ok (Except.ok respA) :=
  (as_route_fn_dispatch matchRouter constService reqA).1 7 reqA rfl

/-- C2 counterexample: `mutRouter` returns `None` on every request, yet the
homogenized callable applied to `reqA` does not hand back `reqA` unchanged —
the router mutated the request (replaced its URL path) before declining. -/
theorem unmatched_unchanged_counterexample :
    (∀ r : Request, (mutRouter r).1 = none) ∧
    ¬ (HomogeneousRouteIntermediate.mk mutRouter unitService).as_route_fn reqA
        = Except.error reqA := by
  refine ⟨fun r => rfl, ?_⟩
  decide

/-- C2 (amended): for a Route whose Router returns `None` on a request,
leaving the request as `req2`, the homogenized callable returns `req2` — the
request exactly as the Router left it — as the unmatched outcome, for every
paired Service; in particular, when the Router does not mutate the request
(`req2 = req`), the original Request round-trips back unchanged. -/
theorem as_route_fn_unmatched {C : Type} (router : RouterFn C) (service : ServiceFn C)
    (req req2 : Request) (hrun : router req = (none, req2)) :
    (HomogeneousRouteIntermediate.mk router service).as_route_fn req
      = Except.error req2 := by
  simp [HomogeneousRouteIntermediate.as_route_fn, hrun]

/-- Witness for amended C2: a non-mutating never-matching route at a
concrete request hands the very same request back. -/
theorem as_route_fn_unmatched_witness :
    (HomogeneousRouteIntermediate.mk noneRouter unitService).as_route_fn reqA
      = Except.error reqA :=
  as_route_fn_unmatched noneRouter unitService reqA reqA rfl

/-- C3 counterexample: calling `collect_bytes` with bound 1 on a 2-byte
stream (total 2 > bound 1) buffers 2 bytes at some point of the collection —
the code drains the whole stream before checking the bound, so the buffered
bytes do exceed `max_size`. -/
theorem buffered_within_bound_counterexample :
    2 ∈ collectBufferTrace [StreamEvent.chunk [0, 0]] 0 ∧ ¬ (2 ≤ 1) ∧
    Body.collect_bytes (Body.mk (HyperIncoming.mk "/" [] [StreamEvent.chunk [0, 0]]))
      (some 1) = Except.error (Error.RequestTooLarge 2 1) := by
  decide

/-- C3 (amended): `collect_bytes` drains the entire fault-free stream into
the aggregate buffer before the size check, so the buffered byte count
reaches the full total length even when it exceeds the supplied bound; the
bound is enforced only on the outcome: when the total exceeds it, the call
fails with `RequestTooLarge` and no bytes are returned (the drained data is
discarded), so no more than `max_size` bytes are ever handed to the caller. -/
theorem collect_bytes_buffers_full_stream (chunks : List (List Nat)) (m : Nat)
    (p : String) (hs : HeaderMap) (h : m < chunks.flatten.length) :
    chunks.flatten.length ∈ collectBufferTrace (chunks.map StreamEvent.chunk) 0 ∧
    Body.collect_bytes (Body.mk (HyperIncoming.mk p hs (chunks.map StreamEvent.chunk)))
      (some m) = Except.error (Error.RequestTooLarge chunks.flatten.length m) := by
  have hne : chunks ≠ [] := by
    intro hc
    rw [hc] at h
    simp at h
  constructor
  · simpa using collectBufferTrace_total chunks hne 0
  · exact collect_bytes_error_of_over chunks m p hs h

/-- Witness for amended C3 at a concrete over-sized stream. -/
theorem collect_bytes_buffers_full_stream_witness :
    3 ∈ collectBufferTrace ([[5, 6], [7]].map StreamEvent.chunk) 0 ∧
    Body.collect_bytes (Body.mk (HyperIncoming.mk "/" [] ([[5, 6], [7]].map StreamEvent.chunk)))
      (some 2) = Except.error (Error.RequestTooLarge 3 2) :=
  collect_bytes_buffers_full_stream [[5, 6], [7]] 2 "/" [] (by decide)

/-- C4: for every Body whose fault-free stream has total byte length at
most the configured `max_size`, or when no bound is given, `collect_bytes`
succeeds and returns exactly the concatenation of the stream's chunks in
order. -/
theorem collect_bytes_within_bound (chunks : List (List Nat)) (max_size : Option Nat)
    (p : String) (hs : HeaderMap)
    (h : ∀ m, max_size = some m → chunks.flatten.length ≤ m) :
    Body.collect_bytes (Body.mk (HyperIncoming.mk p hs (chunks.map StreamEvent.chunk)))
      max_size = Except.ok chunks.flatten :=
  collect_bytes_ok_of_bound chunks max_size p hs h

/-- Witness for C4: chunks `[[104, 101], [108]]` under bound 3 collect to
`[104, 101, 108]`. -/
theorem collect_bytes_within_bound_witness :
    Body.collect_bytes
      (Body.mk (HyperIncoming.mk "/" [] ([[104, 101], [108]].map StreamEvent.chunk)))
      (some 3) = Except.ok [104, 101, 108] :=
  collect_bytes_within_bound [[104, 101], [108]] (some 3) "/" []
    (fun m hm => by
      simp only [Option.some.injEq] at hm
      subst hm
      decide)

/-- C5: for every Body whose fault-free stream has total byte length
exceeding the configured `max_size`, `collect_bytes` fails with
`RequestTooLarge(actual_len, max_size)` where `actual_len` is the total
length; the outcome is exactly that error, so no partial bytes are ever
returned to the caller. -/
theorem collect_bytes_too_large (chunks : List (List Nat)) (m : Nat)
    (p : String) (hs : HeaderMap) (h : m < chunks.flatten.length) :
    Body.collect_bytes (Body.mk (HyperIncoming.mk p hs (chunks.map StreamEvent.chunk)))
      (some m) = Except.error (Error.RequestTooLarge chunks.flatten.length m) :=
  collect_bytes_error_of_over chunks m p hs h

/-- Witness for C5: a 10-byte stream under bound 5 fails with
`RequestTooLarge(10, 5)` (the spec's own scenario). -/
theorem collect_bytes_too_large_witness :
    Body.collect_bytes
      (Body.mk (HyperIncoming.mk "/" []
        ([[104, 101, 108, 108, 111], [119, 111, 114, 108, 100]].map StreamEvent.chunk)))
      (some 5) = Except.error (Error.RequestTooLarge 10 5) :=
  collect_bytes_too_large [[104, 101, 108, 108, 111], [119, 111, 114, 108, 100]] 5 "/" []
    (by decide)

/-- C6: `collect_str` enforces the size bound before UTF-8 validation: for
every Body whose fault-free stream has total byte length exceeding the
supplied `max_size`, `collect_str` fails with `RequestTooLarge(actual,
limit)` — the equality pins the outcome to exactly that error for every
chunk content, so invalid UTF-8 bytes can never surface as `Encoding` in
this case. -/
theorem collect_str_size_before_utf8 (chunks : List (List Nat)) (m : Nat)
    (p : String) (hs : HeaderMap) (h : m < chunks.flatten.length) :
    Body.collect_str (Body.mk (HyperIncoming.mk p hs (chunks.map StreamEvent.chunk)))
      (some m) = Except.error (Error.RequestTooLarge chunks.flatten.length m) := by
  have hcb := collect_bytes_error_of_over chunks m p hs h
  simp [Body.collect_str, hcb]

/-- Witness for C6: a 2-byte stream of invalid UTF-8 (`[255, 255]`) under
bound 1 fails with `RequestTooLarge(2, 1)`, not `Encoding`. -/
theorem collect_str_size_before_utf8_witness :
    validUtf8 [255, 255] = false ∧
    Body.collect_str (Body.mk (HyperIncoming.mk "/" [] ([[255, 255]].map StreamEvent.chunk)))
      (some 1) = Except.error (Error.RequestTooLarge 2 1) :=
  ⟨rfl, collect_str_size_before_utf8 [[255, 255]] 1 "/" [] (by decide)⟩

/-- C7: within the size bound, for a stream whose concatenated bytes are
not valid UTF-8, `collect_str` fails with `Encoding` (carrying the bytes of
the `FromUtf8Error`) while `collect_bytes` on an equivalent stream (same
chunks, same bound) succeeds with the raw bytes; for valid UTF-8 bytes
within the bound, `collect_str` returns the decoded string (a Rust `String`
is its UTF-8 bytes). -/
theorem collect_str_utf8 (chunks : List (List Nat)) (max_size : Option Nat)
    (p : String) (hs : HeaderMap)
    (hbound : ∀ m, max_size = some m → chunks.flatten.length ≤ m) :
    (validUtf8 chunks.flatten = false →
      Body.collect_str (Body.mk (HyperIncoming.mk p hs (chunks.map StreamEvent.chunk)))
        max_size = Except.error (Error.Encoding chunks.flatten) ∧
      Body.collect_bytes (Body.mk (HyperIncoming.mk p hs (chunks.map StreamEvent.chunk)))
        max_size = Except.ok chunks.flatten) ∧
    (validUtf8 chunks.flatten = true →
      Body.collect_str (Body.mk (HyperIncoming.mk p hs (chunks.map StreamEvent.chunk)))
        max_size = Except.ok chunks.flatten) := by
  have hcb := collect_bytes_ok_of_bound chunks max_size p hs hbound
  constructor
  · intro hvalid
    exact ⟨by simp [Body.collect_str, hcb, stringFromUtf8, hvalid], hcb⟩
  · intro hvalid
    simp [Body.collect_str, hcb, stringFromUtf8, hvalid]

/-- Witness for C7: the single invalid byte `[255]` makes `collect_str`
fail with `Encoding [255]` while `collect_bytes` succeeds with `[255]`. -/
theorem collect_str_utf8_witness :
    Body.collect_str (Body.mk (HyperIncoming.mk "/" [] ([[255]].map StreamEvent.chunk)))
      none = Except.error (Error.Encoding [255]) ∧
    Body.collect_bytes (Body.mk (HyperIncoming.mk "/" [] ([[255]].map StreamEvent.chunk)))
      none = Except.ok [255] :=
  (collect_str_utf8 [[255]] none "/" [] (fun _ hm => Option.noConfusion hm)).1 rfl

/-- C8: when the underlying stream reports a transport fault during body
collection (after any run of chunks, whatever follows), `collect_bytes` and
`collect_str` fail with `Error::Hyper` wrapping exactly that transport
error (via `From<hyper::Error> for Error`), for every size bound —
propagated directly with no retry. -/
theorem collect_transport_fault (chunks : List (List Nat)) (e : HyperError)
    (rest : List StreamEvent) (max_size : Option Nat) (p : String) (hs : HeaderMap) :
    Body.collect_bytes
      (Body.mk (HyperIncoming.mk p hs
        (chunks.map StreamEvent.chunk ++ StreamEvent.fault e :: rest)))
      max_size = Except.error (Error.Hyper e) ∧
    Body.collect_str
      (Body.mk (HyperIncoming.mk p hs
        (chunks.map StreamEvent.chunk ++ StreamEvent.fault e :: rest)))
      max_size = Except.error (Error.Hyper e) := by
  have hcs := collectStream_fault chunks e rest
  constructor
  · simp [Body.collect_bytes, hcs]
  · simp [Body.collect_str, Body.collect_bytes, hcs]

/-- C9: the Request derived from an incoming transport message has
`url_path` equal to the message's URI path, the header mapping copied from
the message's headers, and a Body wrapping the message (hence its
unconsumed byte stream). -/
theorem request_from_incoming (v : HyperIncoming) :
    (Request.fromHyper v).header.url_path = v.uriPath ∧
    (Request.fromHyper v).header.headers = v.headers ∧
    (Request.fromHyper v).body = Body.mk v ∧
    (Request.fromHyper v).body.inner.bodyStream = v.bodyStream :=
  ⟨rfl, rfl, rfl, rfl⟩

/-- C10: `collect_bytes` never fails with an `Encoding` error: for every
Body (any stream, faults included) and every `max_size` setting, the result
is never the `Encoding` variant — only `Hyper` or `RequestTooLarge`
failures can arise. -/
theorem collect_bytes_never_encoding (b : Body) (max_size : Option Nat) :
    isEncodingResult (b.collect_bytes max_size) = false := by
  unfold Body.collect_bytes
  cases hcs : collectStream b.inner.bodyStream with
  | error e => rfl
  | ok bs =>
    cases max_size with
    | none => rfl
    | some m =>
      by_cases hb : bs.length > m
      · simp [hb, isEncodingResult]
      · simp [hb, isEncodingResult]

end LibServer
